import Mathlib

/-!  Shallow embedding of the i18n core of this repository: the translation
manager (`crates/i18n/src/manager.rs`) and the language-code tables and
matching (`crates/i18n/src/lang_codes.rs`).  Rust strings are modelled as
lists of characters (UTF-8 is self-synchronizing, so byte-level prefix and
substring tests on well-formed strings coincide with character-level ones);
Rust `HashMap`s are modelled as association lists, which makes the source's
unspecified iteration order explicit.  -/

namespace I18n

/-- Rust strings, modelled as lists of characters. -/
abbrev Str := List Char

/-- Conversion of a Lean string literal into the model. -/
def lit (s : String) : Str := s.toList

/-- Lower-casing of one character: the fragment of Rust
`char::to_lowercase` covering every cased character that appears in the
tables of `lang_codes.rs` - ASCII A-Z (all table keys), Cyrillic А-Я
(codepoints 1040-1071, as in the native names "Русский" and "Українська"),
and Č (codepoint 268, as in "Čeština").  Every other character, in
particular every caseless character of the tables' CJK, Thai, Arabic,
Hebrew and Devanagari entries, is returned unchanged. -/
def lowerChar (c : Char) : Char :=
  if 65 ≤ c.toNat ∧ c.toNat ≤ 90 then Char.ofNat (c.toNat + 32)
  else if 1040 ≤ c.toNat ∧ c.toNat ≤ 1071 then Char.ofNat (c.toNat + 32)
  else if c.toNat = 268 then Char.ofNat 269
  else c

/-- ASCII upper-case test (the character range A-Z). -/
def isAsciiUpper (c : Char) : Bool := decide (65 ≤ c.toNat ∧ c.toNat ≤ 90)

/-- Rust `str::to_lowercase`, character-wise on the fragment above. -/
def lowerStr (s : Str) : Str := s.map lowerChar

/-- Association-list lookup, the model of `HashMap::get`. -/
def alookup {α : Type} (m : List (Str × α)) (k : Str) : Option α :=
  match m with
  | [] => none
  | p :: rest => if p.1 = k then some p.2 else alookup rest k

/-- Association-list insert, the model of `HashMap::insert`: an existing
binding is replaced in place, a new key is appended. -/
def ainsert {α : Type} (m : List (Str × α)) (k : Str) (v : α) : List (Str × α) :=
  if m.any (fun p => p.1 = k) then m.map (fun p => if p.1 = k then (k, v) else p)
  else m ++ [(k, v)]

/-- System-locale normalization table `SYSTEM_LANG_MAPPINGS` of
`lang_codes.rs`, in source order. -/
def SYSTEM_LANG_MAPPINGS : List (Str × Str) := [
  (lit ("chinese-simplified"), lit ("zh-cn")),
  (lit ("chinese (simplified)"), lit ("zh-cn")),
  (lit ("chs"), lit ("zh-cn")),
  (lit ("zh_cn"), lit ("zh-cn")),
  (lit ("zh-cn"), lit ("zh-cn")),
  (lit ("zh_hans"), lit ("zh-cn")),
  (lit ("zh-hans"), lit ("zh-cn")),
  (lit ("zh_cn.utf8"), lit ("zh-cn")),
  (lit ("zh_cn.utf-8"), lit ("zh-cn")),
  (lit ("zh.utf8"), lit ("zh-cn")),
  (lit ("zh"), lit ("zh-cn")),
  (lit ("chinese"), lit ("zh-cn")),
  (lit ("zho"), lit ("zh-cn")),
  (lit ("zhcn"), lit ("zh-cn")),
  (lit ("chinese-traditional"), lit ("zh-tw")),
  (lit ("chinese (traditional)"), lit ("zh-tw")),
  (lit ("cht"), lit ("zh-tw")),
  (lit ("zh_tw"), lit ("zh-tw")),
  (lit ("zh-tw"), lit ("zh-tw")),
  (lit ("zh_hant"), lit ("zh-tw")),
  (lit ("zh-hant"), lit ("zh-tw")),
  (lit ("zh_tw.utf8"), lit ("zh-tw")),
  (lit ("zh_tw.utf-8"), lit ("zh-tw")),
  (lit ("zh_hk"), lit ("zh-tw")),
  (lit ("zh-hk"), lit ("zh-tw")),
  (lit ("zh_mo"), lit ("zh-tw")),
  (lit ("zh-mo"), lit ("zh-tw")),
  (lit ("zhtw"), lit ("zh-tw")),
  (lit ("zhht"), lit ("zh-tw")),
  (lit ("japanese"), lit ("ja")),
  (lit ("ja"), lit ("ja")),
  (lit ("ja_jp"), lit ("ja")),
  (lit ("ja-jp"), lit ("ja")),
  (lit ("jpn"), lit ("ja")),
  (lit ("ja_ja"), lit ("ja")),
  (lit ("ja-ja"), lit ("ja")),
  (lit ("ja.utf8"), lit ("ja")),
  (lit ("ja.utf-8"), lit ("ja")),
  (lit ("ja_jp.utf8"), lit ("ja")),
  (lit ("ja_jp.utf-8"), lit ("ja")),
  (lit ("korean"), lit ("ko")),
  (lit ("ko"), lit ("ko")),
  (lit ("ko_kr"), lit ("ko")),
  (lit ("ko-kr"), lit ("ko")),
  (lit ("kor"), lit ("ko")),
  (lit ("ko_ko"), lit ("ko")),
  (lit ("ko-ko"), lit ("ko")),
  (lit ("ko.utf8"), lit ("ko")),
  (lit ("ko.utf-8"), lit ("ko")),
  (lit ("ko_kr.utf8"), lit ("ko")),
  (lit ("ko_kr.utf-8"), lit ("ko")),
  (lit ("vietnamese"), lit ("vi")),
  (lit ("vi"), lit ("vi")),
  (lit ("vi_vn"), lit ("vi")),
  (lit ("vi-vn"), lit ("vi")),
  (lit ("vie"), lit ("vi")),
  (lit ("vi.utf8"), lit ("vi")),
  (lit ("vi.utf-8"), lit ("vi")),
  (lit ("vi_vn.utf8"), lit ("vi")),
  (lit ("thai"), lit ("th")),
  (lit ("th"), lit ("th")),
  (lit ("th_th"), lit ("th")),
  (lit ("th-th"), lit ("th")),
  (lit ("tha"), lit ("th")),
  (lit ("th.utf8"), lit ("th")),
  (lit ("th_th.utf8"), lit ("th")),
  (lit ("indonesian"), lit ("id")),
  (lit ("id"), lit ("id")),
  (lit ("id_id"), lit ("id")),
  (lit ("id-id"), lit ("id")),
  (lit ("ind"), lit ("id")),
  (lit ("id.utf8"), lit ("id")),
  (lit ("id_id.utf8"), lit ("id")),
  (lit ("malay"), lit ("ms")),
  (lit ("ms"), lit ("ms")),
  (lit ("ms_my"), lit ("ms")),
  (lit ("ms-my"), lit ("ms")),
  (lit ("msa"), lit ("ms")),
  (lit ("ms.utf8"), lit ("ms")),
  (lit ("ms_my.utf8"), lit ("ms")),
  (lit ("spanish"), lit ("es")),
  (lit ("es"), lit ("es")),
  (lit ("es_es"), lit ("es")),
  (lit ("es-es"), lit ("es")),
  (lit ("spa"), lit ("es")),
  (lit ("es_419"), lit ("es")),
  (lit ("es-419"), lit ("es")),
  (lit ("es_mx"), lit ("es")),
  (lit ("es-mx"), lit ("es")),
  (lit ("es.utf8"), lit ("es")),
  (lit ("es_es.utf8"), lit ("es")),
  (lit ("french"), lit ("fr")),
  (lit ("fr"), lit ("fr")),
  (lit ("fr_fr"), lit ("fr")),
  (lit ("fr-fr"), lit ("fr")),
  (lit ("fra"), lit ("fr")),
  (lit ("fr_ca"), lit ("fr")),
  (lit ("fr-ca"), lit ("fr")),
  (lit ("fr_be"), lit ("fr")),
  (lit ("fr_ch"), lit ("fr")),
  (lit ("fr.utf8"), lit ("fr")),
  (lit ("fr_fr.utf8"), lit ("fr")),
  (lit ("german"), lit ("de")),
  (lit ("de"), lit ("de")),
  (lit ("de_de"), lit ("de")),
  (lit ("de-de"), lit ("de")),
  (lit ("deu"), lit ("de")),
  (lit ("de_at"), lit ("de")),
  (lit ("de-at"), lit ("de")),
  (lit ("de_ch"), lit ("de")),
  (lit ("de.utf8"), lit ("de")),
  (lit ("de_de.utf8"), lit ("de")),
  (lit ("italian"), lit ("it")),
  (lit ("it"), lit ("it")),
  (lit ("it_it"), lit ("it")),
  (lit ("it-it"), lit ("it")),
  (lit ("ita"), lit ("it")),
  (lit ("it_ch"), lit ("it")),
  (lit ("it.utf8"), lit ("it")),
  (lit ("it_it.utf8"), lit ("it"))]

/-- Per-language keyword lists `EXTENSION_LANG_KEYWORDS` of
`lang_codes.rs`, in source order. -/
def EXTENSION_LANG_KEYWORDS : List (Str × List Str) := [
  (lit ("zh-cn"), [lit ("zh-cn"), lit ("zh_cn"), lit ("zhcn"), lit ("zh-CN"), lit ("zh_CN"),
    lit ("simplified"), lit ("简体"), lit ("简体中文"), lit ("中文"), lit ("汉语")]),
  (lit ("zh-tw"), [lit ("zh-tw"), lit ("zh_tw"), lit ("zhtw"), lit ("zh-TW"), lit ("zh_TW"),
    lit ("traditional"), lit ("繁體"), lit ("繁體中文"), lit ("正體"), lit ("正體中文"),
    lit ("zh-hk"), lit ("zh_hk"), lit ("香港"), lit ("台灣"), lit ("澳門")]),
  (lit ("ja"), [lit ("ja"), lit ("jp"), lit ("jpn"), lit ("japanese"),
    lit ("日本語"), lit ("日文"), lit ("にほんご")]),
  (lit ("ko"), [lit ("ko"), lit ("kr"), lit ("kor"), lit ("korean"),
    lit ("한국어"), lit ("韓國語"), lit ("조선말")]),
  (lit ("vi"), [lit ("vi"), lit ("vie"), lit ("vietnamese"),
    lit ("tieng-viet"), lit ("tiếng-việt")]),
  (lit ("es"), [lit ("es"), lit ("spa"), lit ("spanish"),
    lit ("español"), lit ("castellano"), lit ("西班牙语"), lit ("西班牙文")]),
  (lit ("fr"), [lit ("fr"), lit ("fra"), lit ("french"),
    lit ("français"), lit ("法语"), lit ("法文")]),
  (lit ("de"), [lit ("de"), lit ("deu"), lit ("german"), lit ("deutsch"),
    lit ("德语"), lit ("德文")]),
  (lit ("it"), [lit ("it"), lit ("ita"), lit ("italian"), lit ("italiano"),
    lit ("意大利语"), lit ("意大利文")])]

/-- Native display-name table `LANG_NATIVE_NAMES` of `lang_codes.rs`,
in source order. -/
def LANG_NATIVE_NAMES : List (Str × Str) := [
  (lit ("zh-cn"), lit ("简体中文")),
  (lit ("zh-tw"), lit ("繁體中文")),
  (lit ("ja"), lit ("日本語")),
  (lit ("ko"), lit ("한국어")),
  (lit ("vi"), lit ("Tiếng Việt")),
  (lit ("th"), lit ("ไทย")),
  (lit ("id"), lit ("Bahasa Indonesia")),
  (lit ("ms"), lit ("Bahasa Melayu")),
  (lit ("en"), lit ("English")),
  (lit ("es"), lit ("Español")),
  (lit ("fr"), lit ("Français")),
  (lit ("de"), lit ("Deutsch")),
  (lit ("it"), lit ("Italiano")),
  (lit ("pt"), lit ("Português")),
  (lit ("nl"), lit ("Nederlands")),
  (lit ("ru"), lit ("Русский")),
  (lit ("pl"), lit ("Polski")),
  (lit ("uk"), lit ("Українська")),
  (lit ("cs"), lit ("Čeština")),
  (lit ("hu"), lit ("Magyar")),
  (lit ("ar"), lit ("العربية")),
  (lit ("tr"), lit ("Türkçe")),
  (lit ("hi"), lit ("हिन्दी")),
  (lit ("he"), lit ("עברית"))]

/-- Locale normalization, the body of `get_system_language` in
`lang_codes.rs` applied to a given raw locale value: `split('.').next()`,
lower-case, table lookup, and on a miss a retry with the portion before the
first underscore or hyphen. -/
def normalize (raw : Str) : Option Str :=
  match alookup SYSTEM_LANG_MAPPINGS (lowerStr (raw.takeWhile (fun c => c ≠ '.'))) with
  | some v => some v
  | none =>
      alookup SYSTEM_LANG_MAPPINGS
        ((lowerStr (raw.takeWhile (fun c => c ≠ '.'))).takeWhile
          (fun c => ¬(c = '_' ∨ c = '-')))

/-- Modelled from the spec: normalization as worded in the specification,
which lower-cases the whole input, first tries a direct table match, then
strips the portion after the first dot and retries, then retries the portion
before the first underscore or hyphen.  Used only to compare the spec's
description against `normalize`, the function embedded from the source. -/
def spec_normalize (raw : Str) : Option Str :=
  match alookup SYSTEM_LANG_MAPPINGS (lowerStr raw) with
  | some v => some v
  | none =>
      match alookup SYSTEM_LANG_MAPPINGS ((lowerStr raw).takeWhile (fun c => c ≠ '.')) with
      | some v => some v
      | none =>
          alookup SYSTEM_LANG_MAPPINGS
            (((lowerStr raw).takeWhile (fun c => c ≠ '.')).takeWhile
              (fun c => ¬(c = '_' ∨ c = '-')))

/-- Fuzzy matcher `is_extension_match` of `lang_codes.rs`: lower-case the
extension id, require the fixed prefix, then accept by prefix of the
remainder, by keyword substring, or by native-name substring. -/
def is_extension_match (extension_id lang_code : Str) : Bool :=
  if lit ("i18n-") <+: lowerStr extension_id then
    decide (lang_code <+: (lowerStr extension_id).drop 5)
    || (match alookup EXTENSION_LANG_KEYWORDS lang_code with
        | some keywords =>
            keywords.any (fun kw => decide (lowerStr kw <:+: (lowerStr extension_id).drop 5))
        | none => false)
    || (match alookup LANG_NATIVE_NAMES lang_code with
        | some nm => decide (lowerStr nm <:+: (lowerStr extension_id).drop 5)
        | none => false)
  else false

/-- Language record of `lang_codes.rs`. -/
structure Language where
  code : Str
  display_name : Str
deriving DecidableEq

/-- Constructor `Language::from_code`: lower-case the code, then require a
native-name table entry; the `anyhow` error is collapsed to `none`. -/
def Language.from_code (code : Str) : Option Language :=
  match alookup LANG_NATIVE_NAMES (lowerStr code) with
  | some nm => some ⟨lowerStr code, nm⟩
  | none => none

/-- Validation `Language::validate`: the empty string and the literal "en"
are accepted outright, anything else must construct via `from_code`;
`some ()` models `Ok(())`, `none` the `UnknownLanguage` error. -/
def Language.validate (lang_code : Str) : Option Unit :=
  if lang_code = [] then some ()
  else if lang_code = lit ("en") then some ()
  else (Language.from_code lang_code).map (fun _ => ())

/-- Modelled from the spec: the set of "canonical, supported codes per the
normalization tables", i.e. the canonical codes that the Normalization
Table of the spec (SYSTEM_LANG_MAPPINGS) can produce.  Used only to compare
the spec's wording about `switch_language` validation with the source's
`Language::validate`. -/
def spec_supported (code : Str) : Bool :=
  SYSTEM_LANG_MAPPINGS.any (fun p => p.2 = code)

/-- Capacity of the translation cache, fixed at construction in
`I18nState::default` (`LruCache::new(1000)`). -/
def CACHE_CAP : Nat := 1000

/-- Shared state `I18nState` of `manager.rs`.  `resources` models the
`HashMap<String, HashMap<String, String>>` of per-language resource sets;
`translation_cache` models the `LruCache<String, String>` as a list ordered
from most- to least-recently used. -/
structure I18nState where
  current_lang : Str
  resources : List (Str × List (Str × Str))
  translation_cache : List (Str × Str)
deriving DecidableEq

/-- State produced by `I18nState::default()`. -/
def I18nState.default : I18nState :=
  { current_lang := lit ("en-US"), resources := [], translation_cache := [] }

/-- Cache read, `LruCache::get`.  The source calls it under a read guard, so
only the looked-up value is observable; the recency promotion touches the
eviction order alone, which no operation modelled here can observe. -/
def lruGet (cache : List (Str × Str)) (k : Str) : Option Str := alookup cache k

/-- Cache write, `LruCache::put`: insert or update at the most-recent end
and drop the least-recently-used entry when the capacity is exceeded. -/
def lruPut (cache : List (Str × Str)) (k v : Str) : List (Str × Str) :=
  ((k, v) :: cache.filter (fun p => p.1 ≠ k)).take CACHE_CAP

/-- Lookup `I18nManager::get_text`, returning the resolved text and the
updated shared state: cache first; then the active language's resource set;
then a single fallback - the first registered language different from the
active one in the resource map's iteration order; the cache is populated on
either kind of hit. -/
def get_text (st : I18nState) (key : Str) : Option Str × I18nState :=
  match lruGet st.translation_cache key with
  | some cached => (some cached, st)
  | none =>
      match (alookup st.resources st.current_lang).bind (fun res => alookup res key) with
      | some text =>
          (some text, { st with translation_cache := lruPut st.translation_cache key text })
      | none =>
          match (st.resources.map Prod.fst).find? (fun lang => lang ≠ st.current_lang) with
          | some fallback_lang =>
              match alookup st.resources fallback_lang with
              | some res =>
                  match alookup res key with
                  | some text =>
                      (some text,
                        { st with translation_cache := lruPut st.translation_cache key text })
                  | none => (none, st)
              | none => (none, st)
          | none => (none, st)

/-- Placeholder pattern built by `format!` in `format_text`: an opening
brace, the parameter name, a closing brace. -/
def placeholder (name : Str) : Str := lit ("\x7b") ++ name ++ lit ("\x7d")

/-- Rust `str::replace` (all non-overlapping occurrences, scanned left to
right) on the character-list model, driven by a fuel argument that bounds
the scan by the length of the subject; `rustReplace` below supplies enough
fuel for the whole subject, and no caller in this development passes an
empty pattern. -/
def replaceFuel : Nat → Str → Str → Str → Str
  | 0, s, _, _ => s
  | Nat.succ fuel, s, pat, rep =>
      match s with
      | [] => []
      | c :: rest =>
          if pat ≠ [] ∧ pat <+: (c :: rest) then
            rep ++ replaceFuel fuel ((c :: rest).drop pat.length) pat rep
          else c :: replaceFuel fuel rest pat rep

/-- Rust `str::replace` with the fuel supplied. -/
def rustReplace (s pat rep : Str) : Str := replaceFuel s.length s pat rep

/-- Parameter substitution loop of `format_text`: one literal
`replace` per parameter, in parameter order. -/
def substParams (params : List (Str × Str)) (text : Str) : Str :=
  params.foldl (fun acc p => rustReplace acc (placeholder p.1) p.2) text

/-- Formatter `I18nManager::format_text`: resolve via `get_text`, then
substitute the parameters. -/
def format_text (st : I18nState) (key : Str) (params : List (Str × Str)) :
    Option Str × I18nState :=
  match get_text st key with
  | (none, st') => (none, st')
  | (some text, st') => (some (substParams params text), st')

/-- Error cases of `register_i18n_lang_extension` that precede any state
mutation: an unreadable translations file or unparseable JSON. -/
inductive RegError where
  | ReadError
  | FormatError
deriving DecidableEq

/-- Registration `I18nManager::register_i18n_lang_extension`.  Reading and
parsing `translations.json` are performed by external collaborators
(`fs`, `serde_json`), so their outcome is a parameter; the `?` operators of
the source return the error before the state lock is taken, and only a
successful parse inserts the resource set under the identifier given by the
caller. -/
def register_i18n_lang_extension (st : I18nState) (lang_id : Str)
    (parsed : Except RegError (List (Str × Str))) :
    Except RegError Unit × I18nState :=
  match parsed with
  | Except.error e => (Except.error e, st)
  | Except.ok translations =>
      (Except.ok (), { st with resources := ainsert st.resources lang_id translations })

/-- Modelled from the spec: `switch_language(code)` has no implementation
under src/ (only settings plumbing exists); per the spec it validates the
target via the language tables (`Language::validate`, embedded from the
source) and on success updates the active-language state.  The spec's §9
notes that the source performs no cache invalidation on a switch, so the
cache is left untouched here. -/
def switch_language (st : I18nState) (code : Str) : Option I18nState :=
  match Language.validate code with
  | some _ => some { st with current_lang := code }
  | none => none

/-- State used by the concrete staleness scenario: simplified Chinese is
active and holds a translation for one key, Japanese is registered with an
empty resource set, the cache is empty. -/
def stScenario : I18nState :=
  { current_lang := lit ("zh-cn"),
    resources := [(lit ("zh-cn"), [(lit ("i18n.menu.file"), lit ("文件"))]),
                  (lit ("ja"), [])],
    translation_cache := [] }

/-- State used by the fallback counterexample: the active language and the
first other registered language both lack the key, a third registered
language holds it. -/
def stFallback : I18nState :=
  { current_lang := lit ("en-US"),
    resources := [(lit ("en-US"), []),
                  (lit ("ja"), []),
                  (lit ("fr"), [(lit ("i18n.menu.file"), lit ("Fichier"))])],
    translation_cache := [] }

/-- State used by the formatting examples: the active language holds the
spec's greeting text. -/
def stGreeting : I18nState :=
  { current_lang := lit ("en-US"),
    resources := [(lit ("en-US"), [(lit ("greeting"), lit ("Hello, \x7bname\x7d!"))])],
    translation_cache := [] }

/-- State reached in the staleness scenario after resolving the key under
the first language and then switching to Japanese: the active language is
"ja" and the cache still holds the text resolved under "zh-cn". -/
def stAfterSwitch : I18nState :=
  { current_lang := lit ("ja"),
    resources := stScenario.resources,
    translation_cache := [(lit ("i18n.menu.file"), lit ("文件"))] }

/-- State used by the single-fallback witness: the active language's set is
empty and the sole other registered language holds the key. -/
def stWitnessFb : I18nState :=
  { current_lang := lit ("en-US"),
    resources := [(lit ("en-US"), []), (lit ("fr"), [(lit ("k"), lit ("v"))])],
    translation_cache := [] }

theorem toNat_ofNat_valid (n : Nat) (h : n.isValidChar) : (Char.ofNat n).toNat = n := by
  unfold Char.ofNat
  rw [dif_pos h]
  rfl

theorem lowerChar_toNat_of_upper {c : Char} (h : 65 ≤ c.toNat ∧ c.toNat ≤ 90) :
    (lowerChar c).toNat = c.toNat + 32 := by
  rw [lowerChar, if_pos h]
  exact toNat_ofNat_valid _ (Or.inl (by omega))

theorem isAsciiUpper_lowerChar (c : Char) : isAsciiUpper (lowerChar c) = false := by
  by_cases h1 : 65 ≤ c.toNat ∧ c.toNat ≤ 90
  · have hn := lowerChar_toNat_of_upper h1
    simp only [isAsciiUpper, decide_eq_false_iff_not]
    omega
  · by_cases h2 : 1040 ≤ c.toNat ∧ c.toNat ≤ 1071
    · rw [lowerChar, if_neg h1, if_pos h2]
      have hv := toNat_ofNat_valid (c.toNat + 32) (Or.inl (by omega))
      simp only [isAsciiUpper, decide_eq_false_iff_not]
      omega
    · by_cases h3 : c.toNat = 268
      · rw [lowerChar, if_neg h1, if_neg h2, if_pos h3]
        have hv := toNat_ofNat_valid 269 (Or.inl (by omega))
        simp only [isAsciiUpper, decide_eq_false_iff_not]
        omega
      · rw [lowerChar, if_neg h1, if_neg h2, if_neg h3]
        simp only [isAsciiUpper, decide_eq_false_iff_not]
        omega

/-- Lower-casing a character can neither produce nor destroy a character
below the letter ranges (such as the separators used by the tables): every
mapped input is an upper-case letter and every mapped output a lower-case
one, both at or above codepoint 65. -/
theorem lowerChar_eq_nonletter_iff {d : Char}
    (hd : d.toNat < 65 ∨ (90 < d.toNat ∧ d.toNat < 97)) (c : Char) :
    lowerChar c = d ↔ c = d := by
  by_cases h1 : 65 ≤ c.toNat ∧ c.toNat ≤ 90
  · have hn := lowerChar_toNat_of_upper h1
    constructor
    · intro he
      have ht := congrArg Char.toNat he
      rw [hn] at ht
      omega
    · intro he
      have ht := congrArg Char.toNat he
      omega
  · by_cases h2 : 1040 ≤ c.toNat ∧ c.toNat ≤ 1071
    · rw [lowerChar, if_neg h1, if_pos h2]
      have hv := toNat_ofNat_valid (c.toNat + 32) (Or.inl (by omega))
      constructor
      · intro he
        have ht := congrArg Char.toNat he
        rw [hv] at ht
        omega
      · intro he
        have ht := congrArg Char.toNat he
        omega
    · by_cases h3 : c.toNat = 268
      · rw [lowerChar, if_neg h1, if_neg h2, if_pos h3]
        have hv := toNat_ofNat_valid 269 (Or.inl (by omega))
        constructor
        · intro he
          have ht := congrArg Char.toNat he
          rw [hv] at ht
          omega
        · intro he
          have ht := congrArg Char.toNat he
          omega
      · rw [lowerChar, if_neg h1, if_neg h2, if_neg h3]

theorem alookup_mem {α : Type} {m : List (Str × α)} {k : Str} {v : α}
    (h : alookup m k = some v) : (k, v) ∈ m := by
  induction m with
  | nil => simp [alookup] at h
  | cons p rest ih =>
      rw [alookup] at h
      by_cases hp : p.1 = k
      · rw [if_pos hp] at h
        obtain ⟨a, b⟩ := p
        obtain rfl : b = v := by injection h
        obtain rfl : a = k := hp
        exact List.mem_cons_self _ _
      · rw [if_neg hp] at h
        exact List.mem_cons_of_mem _ (ih h)

set_option maxRecDepth 40000 in
/-- Dropping the dot-suffix of any key of the normalization table lands on a
key of the table bound to the same canonical code. -/
theorem mappings_dot_closed :
    ∀ p ∈ SYSTEM_LANG_MAPPINGS,
      alookup SYSTEM_LANG_MAPPINGS (p.1.takeWhile (fun c => c ≠ '.')) = some p.2 := by
  decide

theorem lowerStr_takeWhile_dot (s : Str) :
    (lowerStr s).takeWhile (fun c => c ≠ '.') =
      lowerStr (s.takeWhile (fun c => c ≠ '.')) := by
  have hpred : ((fun c : Char => decide (c ≠ '.')) ∘ lowerChar) =
      fun c : Char => decide (c ≠ '.') := by
    funext c
    simp only [Function.comp]
    rw [decide_eq_decide]
    exact not_congr (lowerChar_eq_nonletter_iff (by decide) c)
  unfold lowerStr
  rw [List.takeWhile_map, hpred]

/-- The spec's normalization pipeline and the source's pipeline agree on
every input. -/
theorem spec_normalize_eq_normalize (raw : Str) : spec_normalize raw = normalize raw := by
  unfold spec_normalize normalize
  rw [← lowerStr_takeWhile_dot]
  cases hlow : alookup SYSTEM_LANG_MAPPINGS (lowerStr raw) with
  | none => rfl
  | some v =>
      have hmem := alookup_mem hlow
      have hclosed :
          alookup SYSTEM_LANG_MAPPINGS
            ((lowerStr raw).takeWhile (fun c => c ≠ '.')) = some v :=
        mappings_dot_closed _ hmem
      rw [hclosed]

theorem alookup_eq_none {α : Type} {m : List (Str × α)} {k : Str}
    (h : ∀ p ∈ m, p.1 ≠ k) : alookup m k = none := by
  induction m with
  | nil => rfl
  | cons p rest ih =>
      rw [alookup, if_neg (h p (List.mem_cons_self p rest))]
      exact ih fun q hq => h q (List.mem_cons_of_mem _ hq)

theorem replaceFuel_of_not_infix :
    ∀ (fuel : Nat) (s pat rep : Str), ¬ (pat <:+: s) → replaceFuel fuel s pat rep = s := by
  intro fuel
  induction fuel with
  | zero =>
      intro s pat rep _
      rfl
  | succ n ih =>
      intro s pat rep h
      cases s with
      | nil => rfl
      | cons c rest =>
          rw [replaceFuel]
          have hc : ¬ (pat ≠ [] ∧ pat <+: (c :: rest)) := by
            rintro ⟨-, hp⟩
            exact h hp.isInfix
          rw [if_neg hc]
          exact congrArg (c :: ·) (ih rest pat rep (fun hi => h (List.infix_cons hi)))

theorem rustReplace_of_not_infix (s pat rep : Str) (h : ¬ (pat <:+: s)) :
    rustReplace s pat rep = s :=
  replaceFuel_of_not_infix _ s pat rep h

/-- C1: after get_text cached the key's text while "zh-cn" was active, a
switch of the active language to "ja" - whose resource set has no entry for
the key - is followed by a further get_text that still returns the value
cached under "zh-cn": the key-only cache serves the stale text, exactly the
violation the claim forbids. -/
theorem C1_stale_cache_after_switch :
    (get_text stScenario (lit ("i18n.menu.file"))).1 = some (lit ("文件")) ∧
    switch_language (get_text stScenario (lit ("i18n.menu.file"))).2 (lit ("ja")) =
      some stAfterSwitch ∧
    alookup stAfterSwitch.resources (lit ("ja")) = some [] ∧
    stAfterSwitch.current_lang = lit ("ja") ∧
    (get_text stAfterSwitch (lit ("i18n.menu.file"))).1 = some (lit ("文件")) := by
  decide

/-- C2 counterexample: in stFallback the key is not cached, absent from the
active language's set, and present in the registered language "fr", yet
get_text returns absence, because the single consulted fallback is the
first registered language different from the active one ("ja"), which lacks
the key. -/
theorem C2_counterexample :
    lruGet stFallback.translation_cache (lit ("i18n.menu.file")) = none ∧
    (alookup stFallback.resources stFallback.current_lang).bind
      (fun r => alookup r (lit ("i18n.menu.file"))) = none ∧
    (alookup stFallback.resources (lit ("fr"))).bind
      (fun r => alookup r (lit ("i18n.menu.file"))) = some (lit ("Fichier")) ∧
    (get_text stFallback (lit ("i18n.menu.file"))).1 = none := by
  decide

/-- C2 (amended): on a cache miss with the key unresolved in the active
language, get_text consults exactly one fallback - the first registered
language in the resource map's iteration order that differs from the active
one - and returns that language's entry for the key, or absence when that
single fallback also lacks it, even if a later registered language has it. -/
theorem C2_single_fallback :
    ∀ (st : I18nState) (key : Str),
      lruGet st.translation_cache key = none →
      (alookup st.resources st.current_lang).bind (fun r => alookup r key) = none →
      (get_text st key).1 =
        ((st.resources.map Prod.fst).find? (fun lang => lang ≠ st.current_lang)).bind
          (fun fb => (alookup st.resources fb).bind (fun r => alookup r key)) := by
  intro st key h1 h2
  unfold get_text
  rw [h1, h2]
  cases hf : (st.resources.map Prod.fst).find? (fun lang => lang ≠ st.current_lang) with
  | none => rfl
  | some fb =>
      cases hr : alookup st.resources fb with
      | none => simp [hr]
      | some res =>
          cases hk : alookup res key with
          | none => simp [hr, hk]
          | some t => simp [hr, hk]

/-- C2 witness: the amended fallback equation applied to a concrete state
whose single fallback holds the key. -/
theorem C2_single_fallback_witness :
    lruGet stWitnessFb.translation_cache (lit ("k")) = none ∧
    (alookup stWitnessFb.resources stWitnessFb.current_lang).bind
      (fun r => alookup r (lit ("k"))) = none ∧
    (get_text stWitnessFb (lit ("k"))).1 =
      ((stWitnessFb.resources.map Prod.fst).find? (fun lang => lang ≠ stWitnessFb.current_lang)).bind
        (fun fb => (alookup stWitnessFb.resources fb).bind (fun r => alookup r (lit ("k")))) :=
  ⟨by decide, by decide, C2_single_fallback stWitnessFb (lit ("k")) (by decide) (by decide)⟩

/-- C3: format_text resolves the key through get_text and applies one
literal replace per parameter in parameter order; a placeholder whose
pattern does not occur is left verbatim and a parameter whose placeholder
does not occur changes nothing; on the spec's greeting example the result
is "Hello, Ada!", and with no parameters the placeholder stays in place. -/
theorem C3_format_text :
    (∀ (st : I18nState) (key : Str) (params : List (Str × Str)),
      (format_text st key params).1 = ((get_text st key).1).map (substParams params)) ∧
    (∀ (text n v : Str), ¬ (placeholder n <:+: text) →
      rustReplace text (placeholder n) v = text) ∧
    (format_text stGreeting (lit ("greeting")) [(lit ("name"), lit ("Ada"))]).1 =
      some (lit ("Hello, Ada!")) ∧
    (format_text stGreeting (lit ("greeting")) []).1 = some (lit ("Hello, \x7bname\x7d!")) := by
  refine ⟨?_, ?_, by decide, by decide⟩
  · intro st key params
    unfold format_text
    cases hg : get_text st key with
    | mk o s2 =>
        cases o with
        | none => rfl
        | some t => rfl
  · intro text n v h
    exact rustReplace_of_not_infix text (placeholder n) v h

/-- C3 witness: the unused-parameter clause applied at a concrete text that
does not contain the placeholder. -/
theorem C3_format_text_witness :
    ¬ (placeholder (lit ("name")) <:+: lit ("abc")) ∧
    rustReplace (lit ("abc")) (placeholder (lit ("name"))) (lit ("x")) = lit ("abc") :=
  ⟨by decide, C3_format_text.2.1 (lit ("abc")) (lit ("name")) (lit ("x")) (by decide)⟩

/-- C4: the spec's normalization pipeline (lower-case, direct match, strip
after the first dot and retry, then retry the portion before the first
underscore or hyphen) agrees with the source's pipeline on every input, and
the three reference values hold. -/
theorem C4_normalize_pipeline :
    (∀ raw : Str, spec_normalize raw = normalize raw) ∧
    normalize (lit ("zh_CN.UTF-8")) = some (lit ("zh-cn")) ∧
    normalize (lit ("JA_JP.utf8")) = some (lit ("ja")) ∧
    normalize (lit ("en_US.UTF-8")) = none :=
  ⟨spec_normalize_eq_normalize, by decide, by decide, by decide⟩

/-- C4 witness: the pipeline agreement applied to the first reference
input. -/
theorem C4_normalize_pipeline_witness :
    spec_normalize (lit ("zh_CN.UTF-8")) = normalize (lit ("zh_CN.UTF-8")) :=
  C4_normalize_pipeline.1 (lit ("zh_CN.UTF-8"))

/-- C5: the matcher rejects every package identifier whose lower-casing
lacks the "i18n-" prefix; with the prefix it accepts whenever the remainder
starts with the language code, whenever a registered keyword of the code
occurs lower-cased as a substring of the remainder, and whenever the code's
lower-cased native name occurs as a substring of the remainder; the three
reference values hold, "i18n-zhcn-custom" is accepted through the keyword
route alone, and "i18n-Русский" is accepted for "ru" through the
native-name route alone. -/
theorem C5_extension_matcher :
    (∀ pid lc : Str, ¬ (lit ("i18n-") <+: lowerStr pid) →
      is_extension_match pid lc = false) ∧
    (∀ pid lc : Str, lit ("i18n-") <+: lowerStr pid → lc <+: (lowerStr pid).drop 5 →
      is_extension_match pid lc = true) ∧
    (∀ (pid lc kw : Str) (kws : List Str), lit ("i18n-") <+: lowerStr pid →
      alookup EXTENSION_LANG_KEYWORDS lc = some kws → kw ∈ kws →
      lowerStr kw <:+: (lowerStr pid).drop 5 → is_extension_match pid lc = true) ∧
    (∀ pid lc nm : Str, lit ("i18n-") <+: lowerStr pid →
      alookup LANG_NATIVE_NAMES lc = some nm →
      lowerStr nm <:+: (lowerStr pid).drop 5 → is_extension_match pid lc = true) ∧
    is_extension_match (lit ("i18n-zh-cn-community")) (lit ("zh-cn")) = true ∧
    is_extension_match (lit ("i18n-japanese")) (lit ("zh-cn")) = false ∧
    is_extension_match (lit ("zh-cn")) (lit ("zh-cn")) = false ∧
    (¬ (lit ("zh-cn") <+: (lowerStr (lit ("i18n-zhcn-custom"))).drop 5) ∧
      is_extension_match (lit ("i18n-zhcn-custom")) (lit ("zh-cn")) = true) ∧
    (alookup EXTENSION_LANG_KEYWORDS (lit ("ru")) = none ∧
      ¬ (lit ("ru") <+: (lowerStr (lit ("i18n-Русский"))).drop 5) ∧
      is_extension_match (lit ("i18n-Русский")) (lit ("ru")) = true) := by
  refine ⟨?_, ?_, ?_, ?_, by decide, by decide, by decide, by decide, by decide⟩
  · intro pid lc h
    unfold is_extension_match
    rw [if_neg h]
  · intro pid lc h hp
    unfold is_extension_match
    rw [if_pos h]
    simp [hp]
  · intro pid lc kw kws hpre halk hmem hinf
    unfold is_extension_match
    rw [if_pos hpre, halk]
    have hany : kws.any (fun kw => decide (lowerStr kw <:+: (lowerStr pid).drop 5)) = true :=
      List.any_eq_true.mpr ⟨kw, hmem, decide_eq_true hinf⟩
    simp [hany]
  · intro pid lc nm hpre halk hinf
    unfold is_extension_match
    rw [if_pos hpre, halk]
    simp [decide_eq_true hinf]

/-- C5 witness: the native-name acceptance clause applied to the Russian
package identifier "i18n-Русский" and the code "ru", whose keyword table
has no entry and whose remainder does not start with the code, so only the
native-name route fires. -/
theorem C5_extension_matcher_witness :
    (lit ("i18n-") <+: lowerStr (lit ("i18n-Русский"))) ∧
    alookup LANG_NATIVE_NAMES (lit ("ru")) = some (lit ("Русский")) ∧
    (lowerStr (lit ("Русский")) <:+: (lowerStr (lit ("i18n-Русский"))).drop 5) ∧
    is_extension_match (lit ("i18n-Русский")) (lit ("ru")) = true :=
  ⟨by decide, by decide, by decide,
    C5_extension_matcher.2.2.2.1 (lit ("i18n-Русский")) (lit ("ru")) (lit ("Русский"))
      (by decide) (by decide) (by decide)⟩

/-- C6: when the translations file is unreadable or unparseable, the
registration returns the error and the entire prior state - every
language's resource set, the active language and the cache - is unchanged. -/
theorem C6_register_error_frame :
    ∀ (st : I18nState) (lang_id : Str) (e : RegError),
      register_i18n_lang_extension st lang_id (Except.error e) = (Except.error e, st) := by
  intro st lang_id e
  rfl

/-- C6 witness: a parse failure against the default state returns the error
and the untouched state. -/
theorem C6_register_error_frame_witness :
    register_i18n_lang_extension I18nState.default (lit ("ja"))
      (Except.error RegError.FormatError) =
      (Except.error RegError.FormatError, I18nState.default) :=
  C6_register_error_frame I18nState.default (lit ("ja")) RegError.FormatError

/-- C7 counterexample: validation accepts the empty string, which is neither
a canonical code producible by the normalization table nor the base
language "en", so acceptance is not exactly canonical-or-base. -/
theorem C7_counterexample :
    Language.validate (lit ("")) = some () ∧
    spec_supported (lit ("")) = false ∧
    lit ("") ≠ lit ("en") := by
  decide

/-- C7 (amended): validation succeeds exactly when the code is empty or its
lower-casing is a key of the native-name table (which contains the base
language "en" together with codes such as "pt" that the normalization table
never produces); every other string fails with the unknown-language error. -/
theorem C7_validate_charact :
    ∀ s : Str, Language.validate s = some () ↔
      (s = [] ∨ (alookup LANG_NATIVE_NAMES (lowerStr s)).isSome = true) := by
  intro s
  unfold Language.validate Language.from_code
  by_cases h1 : s = []
  · simp [h1]
  · rw [if_neg h1]
    by_cases h2 : s = lit ("en")
    · rw [if_pos h2]
      subst h2
      simp only [h1, false_or]
      constructor
      · intro _
        decide
      · intro _
        decide
    · rw [if_neg h2]
      cases halk : alookup LANG_NATIVE_NAMES (lowerStr s) with
      | none => simp [h1]
      | some nm => simp [h1]

/-- C7 witness: the characterization applied to the mixed-case spelling
"PT", accepted because its lower-casing is a native-name key. -/
theorem C7_validate_charact_witness :
    Language.validate (lit ("PT")) = some () ↔
      (lit ("PT") = [] ∨ (alookup LANG_NATIVE_NAMES (lowerStr (lit ("PT")))).isSome = true) :=
  C7_validate_charact (lit ("PT"))

/-- C8 counterexample: registering a resource set under the mixed-case
identifier "ZH-CN" stores it under that exact key, so the resource map now
has a key containing ASCII upper-case letters. -/
theorem C8_counterexample :
    ((register_i18n_lang_extension I18nState.default (lit ("ZH-CN"))
        (Except.ok [(lit ("i18n.menu.file"), lit ("File"))])).2).resources.map Prod.fst =
      [lit ("ZH-CN")] ∧
    (lit ("ZH-CN")).any isAsciiUpper = true := by
  decide

/-- C8 (amended): registration inserts the caller's language identifier
verbatim as the resource-map key - replacing an existing binding in place or
appending a new one - with no lower-casing applied, so the lowercase-key
invariant holds only if every caller already passes lower-cased codes. -/
theorem C8_keys_verbatim :
    ∀ (st : I18nState) (lang_id : Str) (ts : List (Str × Str)),
      ((register_i18n_lang_extension st lang_id (Except.ok ts)).2).resources.map Prod.fst =
        (if st.resources.any (fun p => p.1 = lang_id) then st.resources.map Prod.fst
         else st.resources.map Prod.fst ++ [lang_id]) := by
  intro st lang_id ts
  show (ainsert st.resources lang_id ts).map Prod.fst = _
  unfold ainsert
  by_cases h : st.resources.any (fun p => p.1 = lang_id)
  · rw [if_pos h, if_pos h, List.map_map]
    have hfun : (Prod.fst ∘ fun p : Str × List (Str × Str) =>
        if p.1 = lang_id then (lang_id, ts) else p) = Prod.fst := by
      funext p
      by_cases hp : p.1 = lang_id
      · simp [hp]
      · simp [hp]
    rw [hfun]
  · rw [if_neg h, if_neg h, List.map_append]
    rfl

/-- C8 witness: the verbatim-key equation applied to a mixed-case
registration against the default state. -/
theorem C8_keys_verbatim_witness :
    ((register_i18n_lang_extension I18nState.default (lit ("ZH-CN"))
        (Except.ok [])).2).resources.map Prod.fst =
      (if I18nState.default.resources.any (fun p => p.1 = lit ("ZH-CN")) then
        I18nState.default.resources.map Prod.fst
       else I18nState.default.resources.map Prod.fst ++ [lit ("ZH-CN")]) :=
  C8_keys_verbatim I18nState.default (lit ("ZH-CN")) []

/-- C9: is_extension_match is case-insensitive only in the package
identifier; any language code containing an ASCII upper-case letter matches
nothing, since the lower-cased remainder cannot start with it and the
keyword and native-name tables are keyed by lower-case codes only. -/
theorem C9_uppercase_code_never_matches :
    ∀ pid lc : Str, (∃ c ∈ lc, isAsciiUpper c = true) →
      is_extension_match pid lc = false := by
  intro pid lc hup
  obtain ⟨c, hc, hcu⟩ := hup
  unfold is_extension_match
  by_cases hpre : lit ("i18n-") <+: lowerStr pid
  · rw [if_pos hpre]
    have hnoup : ∀ d ∈ (lowerStr pid).drop 5, isAsciiUpper d = false := by
      intro d hd
      have hd' : d ∈ lowerStr pid := List.drop_subset _ _ hd
      obtain ⟨e, _, rfl⟩ := List.mem_map.mp hd'
      exact isAsciiUpper_lowerChar e
    have h1 : ¬ (lc <+: (lowerStr pid).drop 5) := by
      intro hp
      have hfalse := hnoup c (hp.subset hc)
      rw [hcu] at hfalse
      exact Bool.noConfusion hfalse
    have hkw : alookup EXTENSION_LANG_KEYWORDS lc = none := by
      apply alookup_eq_none
      intro p hp hpk
      have hall : ∀ q ∈ EXTENSION_LANG_KEYWORDS, ∀ d ∈ q.1, isAsciiUpper d = false := by
        decide
      have hfalse := hall p hp c (hpk ▸ hc)
      rw [hcu] at hfalse
      exact Bool.noConfusion hfalse
    have hnn : alookup LANG_NATIVE_NAMES lc = none := by
      apply alookup_eq_none
      intro p hp hpk
      have hall : ∀ q ∈ LANG_NATIVE_NAMES, ∀ d ∈ q.1, isAsciiUpper d = false := by
        decide
      have hfalse := hall p hp c (hpk ▸ hc)
      rw [hcu] at hfalse
      exact Bool.noConfusion hfalse
    simp [hkw, hnn, h1]
  · rw [if_neg hpre]

/-- C9 witness: the matcher applied to a prefixed identifier and the
upper-case spelling "ZH-CN" of a supported code. -/
theorem C9_uppercase_code_witness :
    (∃ c ∈ lit ("ZH-CN"), isAsciiUpper c = true) ∧
    is_extension_match (lit ("i18n-zh-cn")) (lit ("ZH-CN")) = false :=
  ⟨by decide, C9_uppercase_code_never_matches (lit ("i18n-zh-cn")) (lit ("ZH-CN")) (by decide)⟩

/-- C10: whenever get_text returns absence the shared state is exactly the
input state: the active language, every resource set and the cache are
unchanged, so the cache is populated only on a successful resolution. -/
theorem C10_get_text_none_frame :
    ∀ (st : I18nState) (key : Str), (get_text st key).1 = none → (get_text st key).2 = st := by
  intro st key
  unfold get_text
  cases hc : lruGet st.translation_cache key with
  | some v =>
      intro h
      simp at h
  | none =>
      cases hcur : (alookup st.resources st.current_lang).bind (fun res => alookup res key) with
      | some t =>
          intro h
          simp at h
      | none =>
          cases hf : (st.resources.map Prod.fst).find? (fun lang => lang ≠ st.current_lang) with
          | none =>
              intro _
              rfl
          | some fb =>
              cases hr : alookup st.resources fb with
              | none =>
                  intro _
                  simp [hr]
              | some res =>
                  cases hk : alookup res key with
                  | none =>
                      intro _
                      simp [hr, hk]
                  | some t =>
                      intro h
                      simp [hr, hk] at h

/-- C10 witness: the frame property applied to the default state, in which
every lookup misses. -/
theorem C10_get_text_none_frame_witness :
    (get_text I18nState.default (lit ("i18n.menu.file"))).1 = none ∧
    (get_text I18nState.default (lit ("i18n.menu.file"))).2 = I18nState.default :=
  ⟨by decide, C10_get_text_none_frame I18nState.default (lit ("i18n.menu.file")) (by decide)⟩

end I18n
